import Mathlib

/-!
Verification of the request-routing / analysis pipeline of the soulcli
backend (`python_api/router.py`), shallowly embedded in Lean.

Python strings are modelled as Lean `String` (a sequence of Unicode
characters, matching CPython `str`).  The string helpers the router
relies on (`lower`, `split`, `splitlines`, `strip`, `replace`, the `in`
operator, slicing) are embedded at the character-list level.  Unicode
case folding beyond ASCII and non-ASCII whitespace classes are not
modelled: every keyword, command name and delimiter the router uses is
ASCII.  `json.loads` is embedded as a recursive-descent parser over the
character list; surrogate-pair decoding of `\u` escapes and float
normalisation are not modelled (no claim exercises them).  Python
exceptions are modelled with `Except PyErr`; the external collaborators
(`web_search`, `LlmClient.chat`) are oracle functions supplied as a
`Collab` record, and each call to them is recorded in an event trace.
-/

namespace SoulCLI

/-- ASCII part of the whitespace class used by Python `str.split()` and
`str.strip()`. -/
def pySpace (c : Char) : Bool :=
  c = ' ' || c = '\t' || c = '\n' || c = '\r' || c = '\x0b' || c = '\x0c'

/-- The line-boundary characters of Python `str.splitlines()`
(LF, VT, FF, CR, FS, GS, RS, NEL, LINE SEPARATOR, PARAGRAPH SEPARATOR). -/
def lineBreakChar (c : Char) : Bool :=
  c.toNat = 10 || c.toNat = 11 || c.toNat = 12 || c.toNat = 13 || c.toNat = 28 ||
  c.toNat = 29 || c.toNat = 30 || c.toNat = 133 || c.toNat = 8232 || c.toNat = 8233

/-- Python `needle in hay` on character lists. -/
def containsL (needle : List Char) : List Char → Bool
  | [] => needle.isEmpty
  | c :: t => needle.isPrefixOf (c :: t) || containsL needle t

/-- Python `needle in hay` for strings. -/
def strContains (hay needle : String) : Bool :=
  containsL needle.data hay.data

/-- Python `str.lower` on one character (ASCII case folding; the
router's keywords and command names are ASCII). -/
def pyCharLower (c : Char) : Char :=
  if 65 ≤ c.toNat ∧ c.toNat ≤ 90 then Char.ofNat (c.toNat + 32) else c

/-- Python `str.lower`. -/
def pyLower (s : String) : String :=
  String.mk (s.data.map pyCharLower)

/-- Python `str.replace("**", "")` at the list level: remove every
occurrence of two consecutive stars, scanning left to right. -/
def stripStarsL : List Char → List Char
  | [] => []
  | [c] => [c]
  | c1 :: c2 :: t =>
    if c1 = '*' ∧ c2 = '*' then stripStarsL t
    else c1 :: stripStarsL (c2 :: t)

/-- Python `s.replace("**", "")`. -/
def stripStars (s : String) : String :=
  String.mk (stripStarsL s.data)

/-- Python `str.split()` (split on whitespace runs, no empty pieces);
`acc` holds the current word reversed. -/
def pySplitL : List Char → List Char → List (List Char)
  | [], acc => if acc.isEmpty then [] else [acc.reverse]
  | c :: rest, acc =>
    if pySpace c then
      if acc.isEmpty then pySplitL rest [] else acc.reverse :: pySplitL rest []
    else
      pySplitL rest (c :: acc)

/-- Python `command.split()`. -/
def pySplit (s : String) : List String :=
  (pySplitL s.data []).map String.mk

/-- Python `str.splitlines()`; `acc` holds the current line reversed. -/
def splitlinesL : List Char → List Char → List (List Char)
  | [], acc => if acc.isEmpty then [] else [acc.reverse]
  | '\r' :: '\n' :: rest, acc => acc.reverse :: splitlinesL rest []
  | c :: rest, acc =>
    if lineBreakChar c then acc.reverse :: splitlinesL rest []
    else splitlinesL rest (c :: acc)

/-- Python `output.splitlines()`. -/
def splitlines (s : String) : List String :=
  (splitlinesL s.data []).map String.mk

/-- Python `str.strip()` (ASCII whitespace). -/
def pyStrip (s : String) : String :=
  String.mk (((s.data.dropWhile pySpace).reverse.dropWhile pySpace).reverse)

/-- Python `str.startswith`. -/
def pyStartsWith (s pre : String) : Bool :=
  pre.data.isPrefixOf s.data

/-! ## JSON values and `json.loads` -/

/-- A parsed JSON value, as produced by Python `json.loads`.  Integral
numbers carry their value; numbers with a fraction or exponent keep
their literal text (their float value is never consumed by the code
under verification). -/
inductive Json where
  | null
  | bool (b : Bool)
  | num (n : Int)
  | numF (lit : String)
  | str (s : String)
  | arr (elems : List Json)
  | obj (fields : List (String × Json))

/-- Insertion into the field list with Python `dict` semantics: a
repeated key keeps its first position but takes the latest value. -/
def objInsert (kvs : List (String × Json)) (k : String) (v : Json) :
    List (String × Json) :=
  if kvs.any (fun kv => kv.1 == k) then
    kvs.map (fun kv => if kv.1 == k then (kv.1, v) else kv)
  else
    kvs ++ [(k, v)]

/-- Python `dict.get(key, default)`. -/
def dictGet (kvs : List (String × Json)) (key : String) (dflt : Json) : Json :=
  match kvs.find? (fun kv => kv.1 == key) with
  | some kv => kv.2
  | none => dflt

/-- JSON inter-token whitespace. -/
def jsonWs (c : Char) : Bool :=
  c = ' ' || c = '\t' || c = '\n' || c = '\r'

def skipWs (cs : List Char) : List Char :=
  cs.dropWhile jsonWs

/-- Value of a hexadecimal digit. -/
def hexVal (c : Char) : Option Nat :=
  if c.isDigit then some (c.toNat - 48)
  else if 97 ≤ c.toNat ∧ c.toNat ≤ 102 then some (c.toNat - 87)
  else if 65 ≤ c.toNat ∧ c.toNat ≤ 70 then some (c.toNat - 55)
  else none

/-- Single-character JSON string escapes. -/
def escChar : Char → Option Char
  | '"' => some '"'
  | '\\' => some '\\'
  | '/' => some '/'
  | 'b' => some '\x08'
  | 'f' => some '\x0c'
  | 'n' => some '\n'
  | 'r' => some '\r'
  | 't' => some '\t'
  | _ => none

/-- Body of a JSON string after the opening quote; returns the decoded
characters and the input after the closing quote. -/
def parseStringBody : List Char → Option (List Char × List Char)
  | [] => none
  | '"' :: rest => some ([], rest)
  | '\\' :: 'u' :: h1 :: h2 :: h3 :: h4 :: rest => do
    let a ← hexVal h1
    let b ← hexVal h2
    let c ← hexVal h3
    let d ← hexVal h4
    let p ← parseStringBody rest
    some (Char.ofNat (((a * 16 + b) * 16 + c) * 16 + d) :: p.1, p.2)
  | '\\' :: e :: rest => do
    let c ← escChar e
    let p ← parseStringBody rest
    some (c :: p.1, p.2)
  | c :: rest =>
    if c.toNat < 32 then none
    else do
      let p ← parseStringBody rest
      some (c :: p.1, p.2)

def digitsToNat (ds : List Char) : Nat :=
  ds.foldl (fun n c => n * 10 + (c.toNat - 48)) 0

/-- Integer part of a JSON number: `0`, or a nonzero digit followed by
digits (leading zeros are rejected, as in Python). -/
def parseIntPart : List Char → Option (List Char × List Char)
  | '0' :: rest => some (['0'], rest)
  | c :: rest =>
    if c.isDigit then
      some (c :: rest.takeWhile Char.isDigit, rest.dropWhile Char.isDigit)
    else none
  | [] => none

/-- Optional fraction part `.digits`. -/
def parseFrac : List Char → Option (List Char × List Char)
  | '.' :: rest =>
    let ds := rest.takeWhile Char.isDigit
    if ds.isEmpty then none else some ('.' :: ds, rest.dropWhile Char.isDigit)
  | cs => some ([], cs)

/-- Optional exponent part `[eE][+-]?digits`. -/
def parseExp : List Char → Option (List Char × List Char)
  | c :: rest =>
    if c = 'e' ∨ c = 'E' then
      match rest with
      | s :: rest2 =>
        if s = '+' ∨ s = '-' then
          let ds := rest2.takeWhile Char.isDigit
          if ds.isEmpty then none
          else some (c :: s :: ds, rest2.dropWhile Char.isDigit)
        else
          let ds := rest.takeWhile Char.isDigit
          if ds.isEmpty then none
          else some (c :: ds, rest.dropWhile Char.isDigit)
      | [] => none
    else some ([], c :: rest)
  | [] => some ([], [])

/-- A JSON number; integral literals become `Json.num`. -/
def parseNumber (cs : List Char) : Option (Json × List Char) :=
  let sr : Bool × List Char := match cs with
    | '-' :: rest => (true, rest)
    | _ => (false, cs)
  match parseIntPart sr.2 with
  | none => none
  | some (ip, cs2) =>
    match parseFrac cs2 with
    | none => none
    | some (fp, cs3) =>
      match parseExp cs3 with
      | none => none
      | some (ep, cs4) =>
        if fp.isEmpty && ep.isEmpty then
          let v : Int := Int.ofNat (digitsToNat ip)
          some (.num (if sr.1 then -v else v), cs4)
        else
          some (.numF (String.mk ((if sr.1 then ['-'] else []) ++ ip ++ fp ++ ep)), cs4)

mutual

/-- A JSON value, fuel-indexed recursive descent. -/
def parseValue : Nat → List Char → Option (Json × List Char)
  | 0, _ => none
  | fuel + 1, cs =>
    match cs with
    | 'n' :: 'u' :: 'l' :: 'l' :: rest => some (.null, rest)
    | 't' :: 'r' :: 'u' :: 'e' :: rest => some (.bool true, rest)
    | 'f' :: 'a' :: 'l' :: 's' :: 'e' :: rest => some (.bool false, rest)
    | '"' :: rest => (parseStringBody rest).map fun p => (Json.str (String.mk p.1), p.2)
    | '[' :: rest => parseElems fuel (skipWs rest) []
    | '{' :: rest => parseFields fuel (skipWs rest) []
    | _ => parseNumber cs

/-- Elements of a JSON array, positioned at an element or (when no
element has been read yet) the closing bracket. -/
def parseElems : Nat → List Char → List Json → Option (Json × List Char)
  | 0, _, _ => none
  | fuel + 1, cs, acc =>
    match cs with
    | ']' :: rest => if acc.isEmpty then some (.arr [], rest) else none
    | _ =>
      match parseValue fuel cs with
      | none => none
      | some (v, rest) =>
        match skipWs rest with
        | ']' :: rest2 => some (.arr (acc ++ [v]), rest2)
        | ',' :: rest2 => parseElems fuel (skipWs rest2) (acc ++ [v])
        | _ => none

/-- Members of a JSON object, positioned at a key or (when no member
has been read yet) the closing brace. -/
def parseFields : Nat → List Char → List (String × Json) →
    Option (Json × List Char)
  | 0, _, _ => none
  | fuel + 1, cs, acc =>
    match cs with
    | '}' :: rest => if acc.isEmpty then some (.obj [], rest) else none
    | '"' :: rest =>
      match parseStringBody rest with
      | none => none
      | some (key, rest1) =>
        match skipWs rest1 with
        | ':' :: rest2 =>
          match parseValue fuel (skipWs rest2) with
          | none => none
          | some (v, rest3) =>
            match skipWs rest3 with
            | '}' :: rest4 => some (.obj (objInsert acc (String.mk key) v), rest4)
            | ',' :: rest4 => parseFields fuel (skipWs rest4) (objInsert acc (String.mk key) v)
            | _ => none
        | _ => none
    | _ => none

end

/-- Python `json.loads`: parse one value surrounded by whitespace;
`none` models `json.JSONDecodeError`.  The fuel bound exceeds the
number of recursive calls any input of this length can cause. -/
def json_loads (s : String) : Option Json :=
  let cs := skipWs s.data
  match parseValue (3 * cs.length + 16) cs with
  | some (v, rest) => if (skipWs rest).isEmpty then some v else none
  | none => none

/-! ## Python exceptions, collaborators, call trace -/

/-- The Python exceptions the pipeline can raise or observe.
`json.JSONDecodeError` never escapes (it is modelled by `json_loads`
returning `none`), so it needs no constructor. -/
inductive PyErr where
  | indexError
  | attributeError
  | typeError
  | chatError (msg : String)
deriving DecidableEq

/-- One call to an external collaborator. -/
inductive Event where
  | search (query : String)
  | chat (prompt : String)
deriving DecidableEq

/-- The external collaborators (`tools.web_search` and
`LlmClient.chat`).  `web_search` catches every exception internally and
always returns a string; `chat` returns the reply text (its result dict
always carries the `"text"` key) or raises. -/
structure Collab where
  search : String → String
  chat : String → Except PyErr String

/-! ## `format_response` (router.py lines 12-33) -/

mutual

/-- Python `repr` of a JSON-derived value (reached only when a non-str
value is interpolated into an f-string; string escaping inside `repr`
is not modelled, no claim exercises it). -/
def pyRepr : Json → String
  | .null => "None"
  | .bool true => "True"
  | .bool false => "False"
  | .num n => toString n
  | .numF lit => lit
  | .str s => "\x27" ++ s ++ "\x27"
  | .arr xs => "[" ++ String.intercalate ", " (pyReprList xs) ++ "]"
  | .obj kvs => "\x7b" ++ String.intercalate ", " (pyReprObj kvs) ++ "\x7d"

/-- `repr` of the elements of a list. -/
def pyReprList : List Json → List String
  | [] => []
  | j :: t => pyRepr j :: pyReprList t

/-- `repr` of the members of a dict. -/
def pyReprObj : List (String × Json) → List String
  | [] => []
  | (k, v) :: t => ("\x27" ++ k ++ "\x27: " ++ pyRepr v) :: pyReprObj t

end

/-- Python `str()` as used by f-string interpolation. -/
def pyToStr : Json → String
  | .str s => s
  | j => pyRepr j

/-- One recommendation of the list comprehension
`[rec.replace("**", "") for rec in ...]` when the container is a JSON
array: `rec.replace` raises `AttributeError` on a non-str element. -/
def cleanRec : Json → Except PyErr String
  | .str s => .ok (stripStars s)
  | _ => .error .attributeError

/-- The comprehension applied to each element in order; the first
exception aborts the whole comprehension, as in Python. -/
def cleanRecList : List Json → Except PyErr (List String)
  | [] => .ok []
  | x :: xs =>
    match cleanRec x with
    | .ok s =>
      match cleanRecList xs with
      | .ok rest => .ok (s :: rest)
      | .error e => .error e
    | .error e => .error e

/-- The comprehension over `data.get("recommendations", [])`: a list
iterates its elements, a str its characters, a dict its keys; any other
value is not iterable (`TypeError`). -/
def cleanRecs : Json → Except PyErr (List String)
  | .arr xs => cleanRecList xs
  | .str s => .ok (s.data.map fun c => stripStars (String.mk [c]))
  | .obj kvs => .ok (kvs.map fun kv => stripStars kv.1)
  | _ => .error .typeError

/-- The `"-" * 40` horizontal rule. -/
def RULE : String := String.mk (List.replicate 40 '-')

/-- The recommendation lines emitted by
`for i, rec in enumerate(recommendations, 1)`. -/
def recLines : Nat → List String → String
  | _, [] => ""
  | i, r :: rs => "   " ++ toString i ++ ". " ++ r ++ "\n" ++ recLines (i + 1) rs

/-- `format_response(data)`: field access on a non-dict raises
`AttributeError`; on a dict, missing fields default and `"**"` markers
are stripped from the analysis and the recommendations.  The fallible
steps keep Python's evaluation order (`analysis`, then the
recommendation comprehension); the title and command lookups cannot
fail and are pure, so hoisting them is behavior-preserving.  String
concatenation is associative, so the grouping of `++` below builds the
same text as Python's `+=` chain. -/
def format_response (data : Json) : Except PyErr String :=
  match data with
  | .obj kvs =>
    let title := pyToStr (dictGet kvs "title" (.str "SoulCLI Analysis"))
    let command := pyToStr (dictGet kvs "command" (.str ""))
    match dictGet kvs "analysis" (.str "") with
    | .str a =>
      let analysis := stripStars a
      match cleanRecs (dictGet kvs "recommendations" (.arr [])) with
      | .ok recommendations =>
        Except.ok
          ("✨ " ++
            (title ++ "\n" ++ RULE ++ "\n\n" ++
             "➡️ Command:\n   " ++ command ++ "\n\n" ++ RULE ++ "\n\n" ++
             "💡 Analysis:\n   " ++ analysis ++ "\n\n" ++ RULE ++ "\n\n" ++
             "✅ Recommendations:\n" ++ recLines 1 recommendations))
      | .error e => Except.error e
    | _ => Except.error PyErr.attributeError
  | _ => Except.error PyErr.attributeError

/-! ## `get_structured_analysis` (router.py lines 35-59) -/

/-- The fixed system instruction (adjacent Python string literals,
concatenated). -/
def SYSTEM_PROMPT : String :=
  "You are a helpful assistant for a developer terminal. " ++
  "Your task is to provide a clear, structured analysis of a command\x27s output. " ++
  "Return a JSON object with the following keys: \x27title\x27, \x27command\x27, \x27analysis\x27, and \x27recommendations\x27. " ++
  "The \x27recommendations\x27 value should be a list of strings. " ++
  "IMPORTANT: Do not use any Markdown or other formatting in the JSON values. Use plain text only."

/-- `full_prompt = f"{system_prompt}\n\n{prompt}"`. -/
def fullPrompt (prompt : String) : String :=
  SYSTEM_PROMPT ++ "\n\n" ++ prompt

/-- The literal error string returned on `json.JSONDecodeError`. -/
def DECODE_ERR : String := "Error: Could not decode the analysis from the LLM."

/-- The fixed-offset code-fence stripping:
`if text_response.startswith("```json"): text_response = text_response[7:-3].strip()`. -/
def fencePre (t : String) : String :=
  if pyStartsWith t "```json" then
    pyStrip (String.mk ((t.data.take (t.data.length - 3)).drop 7))
  else t

/-- `get_structured_analysis(client, prompt)`: one chat call; only
`json.JSONDecodeError` is caught (yielding `DECODE_ERR`); exceptions
from the chat call or from `format_response` propagate. -/
def get_structured_analysis (co : Collab) (prompt : String) :
    Except PyErr String × List Event :=
  match co.chat (fullPrompt prompt) with
  | .error e => (.error e, [.chat (fullPrompt prompt)])
  | .ok text_response =>
    match json_loads (fencePre text_response) with
    | none => (.ok DECODE_ERR, [.chat (fullPrompt prompt)])
    | some j => (format_response j, [.chat (fullPrompt prompt)])

/-! ## `route_request` (router.py lines 61-100) -/

def COMPLEX_COMMANDS : List String :=
  ["git", "docker", "kubectl", "ffmpeg", "openssl", "rsync"]

def LOG_KEYWORDS : List String :=
  ["error", "exception", "failed", "traceback", "warning"]

/-- `any(keyword in output.lower() for keyword in LOG_KEYWORDS)`. -/
def isLogRequest (output : String) : Bool :=
  LOG_KEYWORDS.any fun k => strContains (pyLower output) k

/-- `any(keyword in line.lower() for keyword in LOG_KEYWORDS)`. -/
def lineMatches (line : String) : Bool :=
  LOG_KEYWORDS.any fun k => strContains (pyLower line) k

/-- The `for line in output.splitlines()` loop: first matching line. -/
def findLogLine : List String → Option String
  | [] => none
  | l :: rest => if lineMatches l then some l else findLogLine rest

/-- Path 3 of `route_request` (log analysis), lines 70-82. -/
def logBranch (co : Collab) (command output : String) :
    Except PyErr String × List Event :=
  match findLogLine (splitlines output) with
  | some line =>
    let search_query := "how to fix error: " ++ line
    let search_result := co.search search_query
    let prompt :=
      "The user ran the command \x27" ++ command ++
      "\x27 and got the following output:\n---\n" ++ output ++ "\n---\n" ++
      "I performed a web search for the error and got this result:\n---\n" ++
      search_result ++ "\n---\n" ++
      "Please analyze this and provide recommendations."
    let r := get_structured_analysis co prompt
    (r.1, .search search_query :: r.2)
  | none => (.ok "Log analysis path, but no specific error line found.", [])

/-- Path 2 of `route_request` (complex command), lines 85-93. -/
def complexBranch (co : Collab) (command output : String) :
    Except PyErr String × List Event :=
  let search_query := "documentation for " ++ command
  let search_result := co.search search_query
  let prompt :=
    "The user ran the command \x27" ++ command ++
    "\x27 and got the following output:\n---\n" ++ output ++ "\n---\n" ++
    "I performed a web search for the command and got this documentation:\n---\n" ++
    search_result ++ "\n---\n" ++
    "Please analyze the output based on the documentation and provide recommendations."
  let r := get_structured_analysis co prompt
  (r.1, .search search_query :: r.2)

/-- Path 1 of `route_request` (simple analysis), lines 96-100. -/
def simpleBranch (co : Collab) (command output : String) :
    Except PyErr String × List Event :=
  let prompt :=
    "The user ran the command \x27" ++ command ++
    "\x27 and got the following output:\n---\n" ++ output ++ "\n---\n" ++
    "Please provide a simple analysis of the output."
  get_structured_analysis co prompt

/-- `route_request(command, output)`: `command.split()[0]` raises
`IndexError` on an empty token list; then the three paths are tried in
priority order. -/
def route_request (co : Collab) (command output : String) :
    Except PyErr String × List Event :=
  match pySplit command with
  | [] => (.error .indexError, [])
  | command_name :: _ =>
    if isLogRequest output then logBranch co command output
    else if COMPLEX_COMMANDS.contains command_name then complexBranch co command output
    else simpleBranch co command output

/-! ## Substring lemmas -/

theorem containsL_nil (w : List Char) : containsL [] w = true := by
  cases w <;> simp [containsL, List.isPrefixOf]

theorem prefixImpContains {n u : List Char} (h : n.isPrefixOf u = true) :
    containsL n u = true := by
  cases u with
  | nil =>
    cases n with
    | nil => simp [containsL]
    | cons a as => simp [List.isPrefixOf] at h
  | cons c t => simp [containsL, h]

theorem contains_cons {n t : List Char} (c : Char) (h : containsL n t = true) :
    containsL n (c :: t) = true := by
  simp [containsL, h]

theorem prefixAppendExt {n u : List Char} (w : List Char)
    (h : n.isPrefixOf u = true) : n.isPrefixOf (u ++ w) = true := by
  rw [List.isPrefixOf_iff_prefix] at h ⊢
  exact h.trans (List.prefix_append u w)

theorem contains_append_left {n u : List Char} (w : List Char)
    (h : containsL n u = true) : containsL n (u ++ w) = true := by
  induction u with
  | nil =>
    simp [containsL] at h
    simp [h, containsL_nil]
  | cons a u' ih =>
    simp only [containsL, Bool.or_eq_true] at h
    rcases h with h | h
    · simp only [List.cons_append, containsL, Bool.or_eq_true]
      exact Or.inl (prefixAppendExt w h)
    · exact contains_cons a (ih h)

theorem contains_append_right {n : List Char} (u : List Char) {w : List Char}
    (h : containsL n w = true) : containsL n (u ++ w) = true := by
  induction u with
  | nil => simpa
  | cons a u' ih => exact contains_cons a ih

/-- A match of `n` inside `u ++ c :: v` cannot cross `c` when `c ∉ n`:
a prefix match through `c` would put `c` in `n`. -/
theorem prefixThroughSep {n : List Char} {c : Char} (hc : c ∉ n) :
    ∀ {u v : List Char}, n.isPrefixOf (u ++ c :: v) = true → n.isPrefixOf u = true := by
  induction n with
  | nil => intro u v _; simp [List.isPrefixOf]
  | cons d n' ih =>
    intro u v h
    cases u with
    | nil =>
      simp only [List.nil_append, List.isPrefixOf, Bool.and_eq_true, beq_iff_eq] at h
      exact absurd (h.1 ▸ List.mem_cons_self d n') hc
    | cons a u' =>
      simp only [List.cons_append, List.isPrefixOf, Bool.and_eq_true, beq_iff_eq] at h ⊢
      exact ⟨h.1, ih (fun hm => hc (List.mem_cons_of_mem d hm)) h.2⟩

/-- A substring avoiding the separator `c` lies wholly left or wholly
right of it. -/
theorem contains_split {n : List Char} {c : Char} (hc : c ∉ n) :
    ∀ {u v : List Char}, containsL n (u ++ c :: v) = true →
      containsL n u = true ∨ containsL n v = true := by
  intro u
  induction u with
  | nil =>
    intro v h
    simp only [List.nil_append, containsL, Bool.or_eq_true] at h
    rcases h with h | h
    · cases n with
      | nil => exact Or.inl (by simp [containsL])
      | cons d n' =>
        simp only [List.isPrefixOf, Bool.and_eq_true, beq_iff_eq] at h
        exact absurd (h.1 ▸ List.mem_cons_self d n') hc
    · exact Or.inr h
  | cons a u' ih =>
    intro v h
    simp only [List.cons_append, containsL, Bool.or_eq_true] at h
    rcases h with h | h
    · exact Or.inl (prefixImpContains (prefixThroughSep hc (u := a :: u') h))
    · rcases ih h with h | h
      · exact Or.inl (contains_cons a h)
      · exact Or.inr h

/-! ## `splitlines` versus substring search, through `lower` -/

theorem pyCharLower_fix_of_break {c : Char} (h : lineBreakChar c = true) :
    pyCharLower c = c := by
  unfold pyCharLower
  rw [if_neg]
  rintro ⟨h1, h2⟩
  simp only [lineBreakChar, Bool.or_eq_true, decide_eq_true_eq] at h
  omega

theorem break_not_mem {n : List Char} {c : Char}
    (hnb : ∀ x ∈ n, lineBreakChar x = false) (hb : lineBreakChar c = true) :
    c ∉ n := fun hm => by rw [hnb c hm] at hb; exact Bool.false_ne_true hb

theorem splitlinesL_nil (acc : List Char) :
    splitlinesL [] acc = if acc.isEmpty then [] else [acc.reverse] := rfl

theorem splitlinesL_crlf (rest acc : List Char) :
    splitlinesL ('\r' :: '\n' :: rest) acc = acc.reverse :: splitlinesL rest [] := by
  rfl

theorem splitlinesL_break {c : Char} {rest : List Char} (acc : List Char)
    (hne2 : ∀ r1, c = '\r' → rest = '\n' :: r1 → False)
    (hbrk : lineBreakChar c = true) :
    splitlinesL (c :: rest) acc = acc.reverse :: splitlinesL rest [] := by
  rw [splitlinesL.eq_def]
  split
  · simp_all
  · rename_i heq
    injection heq with h1 h2
    exact (hne2 _ h1 h2).elim
  · rename_i heq
    injection heq with h1 h2
    subst h1 h2
    rw [if_pos hbrk]

theorem splitlinesL_plain {c : Char} {rest : List Char} (acc : List Char)
    (hne2 : ∀ r1, c = '\r' → rest = '\n' :: r1 → False)
    (hbrk : ¬lineBreakChar c = true) :
    splitlinesL (c :: rest) acc = splitlinesL rest (c :: acc) := by
  rw [splitlinesL.eq_def]
  split
  · simp_all
  · rename_i heq
    injection heq with h1 h2
    exact (hne2 _ h1 h2).elim
  · rename_i heq
    injection heq with h1 h2
    subst h1 h2
    rw [if_neg hbrk]

/-- If a break-free non-empty `n` occurs in the lowering of the whole
text, it occurs in the lowering of one of its `splitlines` lines. -/
theorem contains_lower_line {n : List Char} (hne : n ≠ [])
    (hnb : ∀ c ∈ n, lineBreakChar c = false) :
    ∀ (cs acc : List Char),
      containsL n ((acc.reverse ++ cs).map pyCharLower) = true →
      ∃ l ∈ splitlinesL cs acc, containsL n (l.map pyCharLower) = true := by
  intro cs acc
  induction cs, acc using splitlinesL.induct with
  | case1 acc hacc =>
    intro h
    rw [List.append_nil, List.isEmpty_iff.mp hacc] at h
    cases n with
    | nil => exact absurd rfl hne
    | cons d n' => simp [containsL] at h
  | case2 acc hacc =>
    intro h
    rw [List.append_nil] at h
    refine ⟨acc.reverse, ?_, h⟩
    simp [splitlinesL_nil, hacc]
  | case3 rest acc ih =>
    intro h
    have hr : ('\r' : Char) ∉ n := break_not_mem hnb (by decide)
    have hn : ('\n' : Char) ∉ n := break_not_mem hnb (by decide)
    rw [List.map_append] at h
    have h' : containsL n ((acc.reverse.map pyCharLower) ++
        '\r' :: '\n' :: rest.map pyCharLower) = true := by
      simpa [pyCharLower_fix_of_break (c := '\r') (by decide),
             pyCharLower_fix_of_break (c := '\n') (by decide)] using h
    rcases contains_split hr h' with h1 | h1
    · exact ⟨acc.reverse, by simp [splitlinesL_crlf], h1⟩
    · rcases contains_split hn (u := []) (by simpa using h1) with h2 | h2
      · cases n with
        | nil => exact absurd rfl hne
        | cons d n' => simp [containsL] at h2
      · obtain ⟨l, hl, hcl⟩ := ih (by simpa using h2)
        exact ⟨l, by simp [splitlinesL_crlf, hl], hcl⟩
  | case4 c rest acc hne2 hbrk ih =>
    intro h
    have hcmem : c ∉ n := break_not_mem hnb hbrk
    rw [List.map_append] at h
    have h' : containsL n ((acc.reverse.map pyCharLower) ++
        c :: rest.map pyCharLower) = true := by
      simpa [pyCharLower_fix_of_break hbrk] using h
    rcases contains_split hcmem h' with h1 | h1
    · exact ⟨acc.reverse, by simp [splitlinesL_break acc hne2 hbrk], h1⟩
    · obtain ⟨l, hl, hcl⟩ := ih (by simpa using h1)
      exact ⟨l, by simp [splitlinesL_break acc hne2 hbrk, hl], hcl⟩
  | case5 c rest acc hne2 hbrk ih =>
    intro h
    have heq : acc.reverse ++ c :: rest = (c :: acc).reverse ++ rest := by
      simp
    rw [heq] at h
    obtain ⟨l, hl, hcl⟩ := ih h
    exact ⟨l, by simp [splitlinesL_plain acc hne2 hbrk, hl], hcl⟩

/-- Conversely, a substring of (the lowering of) one `splitlines` line
occurs in (the lowering of) the whole text. -/
theorem line_contains_whole {n : List Char} :
    ∀ (cs acc : List Char), ∀ l ∈ splitlinesL cs acc,
      containsL n (l.map pyCharLower) = true →
      containsL n ((acc.reverse ++ cs).map pyCharLower) = true := by
  intro cs acc
  induction cs, acc using splitlinesL.induct with
  | case1 acc hacc =>
    intro l hl h
    rw [splitlinesL_nil, if_pos hacc] at hl
    simp at hl
  | case2 acc hacc =>
    intro l hl h
    rw [splitlinesL_nil, if_neg hacc] at hl
    simp only [List.mem_singleton] at hl
    subst hl
    rwa [List.append_nil]
  | case3 rest acc ih =>
    intro l hl h
    rw [splitlinesL_crlf] at hl
    rw [List.map_append, List.map_cons, List.map_cons]
    rcases List.mem_cons.mp hl with rfl | hl
    · exact contains_append_left _ h
    · have := ih l (by simpa using hl) h
      exact contains_append_right _ (contains_cons _ (contains_cons _ (by simpa using this)))
  | case4 c rest acc hne2 hbrk ih =>
    intro l hl h
    rw [splitlinesL_break acc hne2 hbrk] at hl
    rw [List.map_append, List.map_cons]
    rcases List.mem_cons.mp hl with rfl | hl
    · exact contains_append_left _ h
    · have := ih l (by simpa using hl) h
      exact contains_append_right _ (contains_cons _ (by simpa using this))
  | case5 c rest acc hne2 hbrk ih =>
    intro l hl h
    rw [splitlinesL_plain acc hne2 hbrk] at hl
    have := ih l hl h
    have heq2 : acc.reverse ++ c :: rest = (c :: acc).reverse ++ rest := by simp
    rw [heq2]
    exact this

/-- Number of Search calls in a trace. -/
def searchCount (evs : List Event) : Nat :=
  evs.countP fun e => match e with | .search _ => true | .chat _ => false

/-- Number of Chat calls in a trace. -/
def chatCount (evs : List Event) : Nat :=
  evs.countP fun e => match e with | .search _ => false | .chat _ => true

/-! ## `stripStars` lemmas -/

theorem containsL_cons (n : List Char) (c : Char) (t : List Char) :
    containsL n (c :: t) = (n.isPrefixOf (c :: t) || containsL n t) := rfl

theorem stripStarsL_cons2 (c1 c2 : Char) (t : List Char) :
    stripStarsL (c1 :: c2 :: t) =
      if c1 = '*' ∧ c2 = '*' then stripStarsL t
      else c1 :: stripStarsL (c2 :: t) := rfl

/-- When its head is not a star, `stripStarsL` keeps it. -/
theorem stripStarsL_cons_ne {c : Char} (t : List Char) (h : ¬c = '*') :
    ∃ y, stripStarsL (c :: t) = c :: y := by
  cases t with
  | nil => exact ⟨[], rfl⟩
  | cons c2 t' =>
    rw [stripStarsL_cons2, if_neg (fun hand => h hand.1)]
    exact ⟨_, rfl⟩

/-- The output of `replace("**", "")` never contains `**` again. -/
theorem stripStarsL_no_double : ∀ l : List Char,
    containsL ['*', '*'] (stripStarsL l) = false := by
  intro l
  induction l using stripStarsL.induct with
  | case1 => rfl
  | case2 c =>
    by_cases hc : c = '*' <;>
      simp [stripStarsL, containsL, List.isPrefixOf, hc]
  | case3 c1 c2 t hand ih =>
    rw [stripStarsL_cons2, if_pos hand]
    exact ih
  | case4 c1 c2 t hand ih =>
    rw [stripStarsL_cons2, if_neg hand]
    simp only [containsL, Bool.or_eq_false_iff]
    refine ⟨?_, ih⟩
    by_cases h1 : c1 = '*'
    · have h2 : ¬c2 = '*' := fun h2 => hand ⟨h1, h2⟩
      obtain ⟨y, hy⟩ := stripStarsL_cons_ne t h2
      rw [hy]
      subst h1
      have h3 : ¬('*' = c2) := fun h3 => h2 h3.symm
      simp [List.isPrefixOf, h3]
    · have h3 : ¬('*' = c1) := fun h3 => h1 h3.symm
      simp [List.isPrefixOf, h3]

/-- `replace("**", "")` leaves a string without `**` unchanged. -/
theorem stripStarsL_clean : ∀ l : List Char,
    containsL ['*', '*'] l = false → stripStarsL l = l := by
  intro l
  induction l using stripStarsL.induct with
  | case1 => intro _; rfl
  | case2 c => intro _; rfl
  | case3 c1 c2 t hand ih =>
    intro h
    obtain ⟨h1, h2⟩ := hand
    subst h1 h2
    simp [containsL, List.isPrefixOf] at h
  | case4 c1 c2 t hand ih =>
    intro h
    rw [containsL_cons, Bool.or_eq_false_iff] at h
    rw [stripStarsL_cons2, if_neg hand, ih h.2]

/-! ## `findLogLine` and `isLogRequest` -/

theorem findLogLine_of_mem : ∀ (ls : List String),
    (∃ x ∈ ls, lineMatches x = true) → ∃ line, findLogLine ls = some line := by
  intro ls
  induction ls with
  | nil => rintro ⟨x, hx, _⟩; simp at hx
  | cons a t ih =>
    rintro ⟨x, hx, hm⟩
    by_cases ha : lineMatches a = true
    · exact ⟨a, by simp [findLogLine, ha]⟩
    · rcases List.mem_cons.mp hx with rfl | hx
      · exact absurd hm ha
      · obtain ⟨line, hline⟩ := ih ⟨x, hx, hm⟩
        exact ⟨line, by simp [findLogLine, ha, hline]⟩

theorem findLogLine_mem : ∀ (ls : List String) (line : String),
    findLogLine ls = some line → line ∈ ls ∧ lineMatches line = true := by
  intro ls
  induction ls with
  | nil => intro line h; simp [findLogLine] at h
  | cons a t ih =>
    intro line h
    rw [findLogLine] at h
    by_cases ha : lineMatches a = true
    · rw [if_pos ha] at h
      injection h with h
      subst h
      exact ⟨List.mem_cons_self a t, ha⟩
    · rw [if_neg ha] at h
      obtain ⟨hm, hl⟩ := ih line h
      exact ⟨List.mem_cons_of_mem a hm, hl⟩

theorem log_keywords_wf : ∀ k ∈ LOG_KEYWORDS,
    k.data ≠ [] ∧ ∀ c ∈ k.data, lineBreakChar c = false := by decide

/-- The whole-output keyword pre-check guarantees the line loop finds a
matching line: no log keyword spans a line boundary. -/
theorem isLog_findLogLine {output : String} (h : isLogRequest output = true) :
    ∃ line, findLogLine (splitlines output) = some line := by
  rw [isLogRequest, List.any_eq_true] at h
  obtain ⟨k, hk, hck⟩ := h
  have h1 : containsL k.data ((([] : List Char).reverse ++ output.data).map pyCharLower) = true := by
    simpa [strContains, pyLower] using hck
  obtain ⟨hne, hnb⟩ := log_keywords_wf k hk
  obtain ⟨l, hl, hcl⟩ := contains_lower_line hne hnb output.data [] h1
  apply findLogLine_of_mem
  refine ⟨String.mk l, ?_, ?_⟩
  · exact List.mem_map_of_mem String.mk hl
  · rw [lineMatches, List.any_eq_true]
    exact ⟨k, hk, by simpa [strContains, pyLower] using hcl⟩

/-- Conversely, a matching line implies the whole-output pre-check. -/
theorem findLogLine_isLog {output line : String}
    (h : findLogLine (splitlines output) = some line) :
    isLogRequest output = true := by
  obtain ⟨hmem, hmatch⟩ := findLogLine_mem _ _ h
  rw [splitlines] at hmem
  obtain ⟨l, hl, rfl⟩ := List.mem_map.mp hmem
  rw [lineMatches, List.any_eq_true] at hmatch
  obtain ⟨k, hk, hck⟩ := hmatch
  rw [isLogRequest, List.any_eq_true]
  refine ⟨k, hk, ?_⟩
  have := line_contains_whole output.data [] l hl
    (by simpa [strContains, pyLower] using hck)
  simpa [strContains, pyLower] using this

/-! ## `pySplit` on all-whitespace commands -/

theorem pySplitL_nil_of_space : ∀ cs : List Char,
    (∀ c ∈ cs, pySpace c = true) → pySplitL cs [] = [] := by
  intro cs
  induction cs with
  | nil => intro _; rfl
  | cons c t ih =>
    intro h
    rw [pySplitL, if_pos (h c (List.mem_cons_self c t))]
    simp only [List.isEmpty_nil, if_pos]
    exact ih fun x hx => h x (List.mem_cons_of_mem c hx)

theorem pySplit_nil_of_space {cmd : String}
    (h : ∀ c ∈ cmd.data, pySpace c = true) : pySplit cmd = [] := by
  rw [pySplit, pySplitL_nil_of_space cmd.data h]
  rfl

/-! ## Shape of `get_structured_analysis` results -/

/-- `get_structured_analysis` always performs exactly one chat call. -/
theorem gsa_trace (co : Collab) (p : String) :
    (get_structured_analysis co p).2 = [Event.chat (fullPrompt p)] := by
  rcases hch : co.chat (fullPrompt p) with e | t <;>
    simp only [get_structured_analysis, hch]
  rcases hj : json_loads (fencePre t) with _ | j <;> simp [hj]

/-- A successfully formatted analysis starts with the sparkle header. -/
theorem format_ok_head {j : Json} {s : String} (h : format_response j = .ok s) :
    ∃ r, s = "✨ " ++ r := by
  cases j with
  | obj kvs =>
    simp only [format_response] at h
    rcases hA : dictGet kvs "analysis" (.str "") with _ | b | n | lit | a | xs | kvs2 <;>
      rw [hA] at h <;> try simp at h
    rcases hR : cleanRecs (dictGet kvs "recommendations" (.arr [])) with e | recs <;>
      rw [hR] at h <;> simp at h
    exact ⟨_, h.symm⟩
  | null => simp [format_response] at h
  | bool b => simp [format_response] at h
  | num n => simp [format_response] at h
  | numF lit => simp [format_response] at h
  | str s2 => simp [format_response] at h
  | arr xs => simp [format_response] at h

/-- A formatted report never coincides with the log-path fallback
message (their first characters differ). -/
theorem sparkle_ne_fallback (r : String) :
    "✨ " ++ r ≠ "Log analysis path, but no specific error line found." := by
  intro h
  have hd := congrArg String.data h
  rw [String.data_append] at hd
  rw [show ("✨ " : String).data = ['✨', ' '] from rfl] at hd
  rw [show ("Log analysis path, but no specific error line found." : String).data =
      'L' :: ("og analysis path, but no specific error line found." : String).data from rfl] at hd
  injection hd with h1 _
  exact absurd h1 (by decide)

/-- A formatted report never coincides with the decode-error string. -/
theorem sparkle_ne_decode (r : String) : "✨ " ++ r ≠ DECODE_ERR := by
  intro h
  have hd := congrArg String.data h
  rw [String.data_append] at hd
  rw [show ("✨ " : String).data = ['✨', ' '] from rfl] at hd
  rw [show (DECODE_ERR : String).data =
      'E' :: ("rror: Could not decode the analysis from the LLM." : String).data from rfl] at hd
  injection hd with h1 _
  exact absurd h1 (by decide)

/-- Every `.ok` result of the analysis step is the decode-error string
or a formatted report. -/
theorem gsa_ok_shape {co : Collab} {p s : String}
    (h : (get_structured_analysis co p).1 = .ok s) :
    s = DECODE_ERR ∨ ∃ r, s = "✨ " ++ r := by
  rcases hch : co.chat (fullPrompt p) with e | t <;>
    simp only [get_structured_analysis, hch] at h
  · exact absurd h (by simp)
  · rcases hj : json_loads (fencePre t) with _ | j <;> rw [hj] at h
    · injection h with h
      exact Or.inl h.symm
    · exact Or.inr (format_ok_head h)

/-! ## Route reduction lemmas -/

theorem route_log {co : Collab} {cmd out name : String} {rest : List String}
    (hsp : pySplit cmd = name :: rest) (hl : isLogRequest out = true) :
    route_request co cmd out = logBranch co cmd out := by
  simp [route_request, hsp, hl]

theorem route_complex {co : Collab} {cmd out name : String} {rest : List String}
    (hsp : pySplit cmd = name :: rest) (hl : isLogRequest out = false)
    (hc : COMPLEX_COMMANDS.contains name = true) :
    route_request co cmd out = complexBranch co cmd out := by
  have hc2 : name ∈ COMPLEX_COMMANDS := by simpa using hc
  simp [route_request, hsp, hl, hc2]

theorem route_simple {co : Collab} {cmd out name : String} {rest : List String}
    (hsp : pySplit cmd = name :: rest) (hl : isLogRequest out = false)
    (hc : COMPLEX_COMMANDS.contains name = false) :
    route_request co cmd out = simpleBranch co cmd out := by
  have hc2 : name ∉ COMPLEX_COMMANDS := by simpa using hc
  simp [route_request, hsp, hl, hc2]

/-- Is the parsed value a JSON object (a Python dict)? -/
def Json.isObj : Json → Bool
  | .obj _ => true
  | _ => false

/-- Test collaborator: echoes searches, chat always replies `"not json"`. -/
def echoCollab : Collab :=
  ⟨fun q => "search result for: " ++ q, fun _ => .ok "not json"⟩

/-- Test collaborator whose chat replies `"5"`: valid JSON, not an object. -/
def numReplyCollab : Collab :=
  ⟨fun _ => "", fun _ => .ok "5"⟩

/-! ## Claims -/

/-- C9: for every command with no whitespace-delimited tokens (empty or
all-whitespace), `route_request` raises `IndexError` before any path is
chosen, even when the output contains a log keyword, because
`command.split()[0]` is evaluated before the log-analysis check. -/
theorem empty_command_index_error (co : Collab) (cmd out : String)
    (h : ∀ c ∈ cmd.data, pySpace c = true) :
    route_request co cmd out = (.error .indexError, []) := by
  simp [route_request, pySplit_nil_of_space h]

theorem empty_command_index_error_witness :
    (∀ c ∈ (" " : String).data, pySpace c = true) ∧
    route_request echoCollab " " "ERROR: boom" = (.error .indexError, []) :=
  ⟨by decide, empty_command_index_error echoCollab " " "ERROR: boom" (by decide)⟩

/-- C4: when the chat reply fails to parse as JSON (after the fixed
code-fence pre-strip), the structured-analysis step returns exactly the
literal decode-error string, with a single chat call, no retry and no
exception. -/
theorem analysis_decode_error (co : Collab) (p t : String)
    (hchat : co.chat (fullPrompt p) = .ok t)
    (hparse : json_loads (fencePre t) = none) :
    get_structured_analysis co p =
      (.ok "Error: Could not decode the analysis from the LLM.",
       [.chat (fullPrompt p)]) := by
  simp only [get_structured_analysis, hchat]
  rw [hparse]
  rfl

theorem analysis_decode_error_witness :
    echoCollab.chat (fullPrompt "p") = .ok "not json" ∧
    json_loads (fencePre "not json") = none ∧
    get_structured_analysis echoCollab "p" =
      (.ok "Error: Could not decode the analysis from the LLM.",
       [.chat (fullPrompt "p")]) :=
  ⟨rfl, rfl, analysis_decode_error echoCollab "p" "not json" rfl rfl⟩

/-- C10: a chat reply that parses as JSON but is not a JSON object makes
the structured-analysis step raise `AttributeError` (field access on a
non-dict) instead of returning the decode-error string, because only
`json.JSONDecodeError` is caught; and the decode-error string is
returned only when the text fails to parse at all. -/
theorem nonobject_reply_attribute_error :
    (∀ (co : Collab) (p t : String) (j : Json),
        co.chat (fullPrompt p) = .ok t →
        json_loads (fencePre t) = some j →
        j.isObj = false →
        get_structured_analysis co p =
          (.error .attributeError, [.chat (fullPrompt p)])) ∧
    (∀ (co : Collab) (p t : String),
        co.chat (fullPrompt p) = .ok t →
        (get_structured_analysis co p).1 = .ok DECODE_ERR →
        json_loads (fencePre t) = none) := by
  constructor
  · intro co p t j hchat hparse hobj
    simp only [get_structured_analysis, hchat]
    rw [hparse]
    cases j with
    | obj kvs => simp [Json.isObj] at hobj
    | null => rfl
    | bool b => rfl
    | num n => rfl
    | numF lit => rfl
    | str s => rfl
    | arr xs => rfl
  · intro co p t hchat hok
    rcases hj : json_loads (fencePre t) with _ | j
    · rfl
    · simp only [get_structured_analysis, hchat] at hok
      rw [hj] at hok
      obtain ⟨r, hr⟩ := format_ok_head hok
      exact absurd hr.symm (sparkle_ne_decode r)

theorem nonobject_reply_attribute_error_witness :
    numReplyCollab.chat (fullPrompt "p") = .ok "5" ∧
    json_loads (fencePre "5") = some (.num 5) ∧
    (Json.num 5).isObj = false ∧
    get_structured_analysis numReplyCollab "p" =
      (.error .attributeError, [.chat (fullPrompt "p")]) :=
  ⟨rfl, rfl, rfl,
   nonobject_reply_attribute_error.1 numReplyCollab "p" "5" (.num 5) rfl rfl rfl⟩

/-- C1: classification is total and mutually exclusive, decided in
priority order: the log-analysis trigger is checked first (it wins even
when the first token names a complex command), then the
complex-command trigger, and otherwise the simple path is taken. -/
theorem route_classification (co : Collab) (cmd out name : String)
    (rest : List String) (hsp : pySplit cmd = name :: rest) :
    ((isLogRequest out = true →
        route_request co cmd out = logBranch co cmd out) ∧
     (isLogRequest out = false ∧ COMPLEX_COMMANDS.contains name = true →
        route_request co cmd out = complexBranch co cmd out) ∧
     (isLogRequest out = false ∧ COMPLEX_COMMANDS.contains name = false →
        route_request co cmd out = simpleBranch co cmd out)) ∧
    (isLogRequest out = true ∨
     (isLogRequest out = false ∧ COMPLEX_COMMANDS.contains name = true) ∨
     (isLogRequest out = false ∧ COMPLEX_COMMANDS.contains name = false)) ∧
    ¬(isLogRequest out = true ∧
      (isLogRequest out = false ∧ COMPLEX_COMMANDS.contains name = true)) ∧
    ¬(isLogRequest out = true ∧
      (isLogRequest out = false ∧ COMPLEX_COMMANDS.contains name = false)) ∧
    ¬((isLogRequest out = false ∧ COMPLEX_COMMANDS.contains name = true) ∧
      (isLogRequest out = false ∧ COMPLEX_COMMANDS.contains name = false)) := by
  refine ⟨⟨fun hl => route_log hsp hl,
           fun hc => route_complex hsp hc.1 hc.2,
           fun hc => route_simple hsp hc.1 hc.2⟩, ?_, ?_, ?_, ?_⟩
  · cases hl : isLogRequest out
    · cases hc : COMPLEX_COMMANDS.contains name
      · exact Or.inr (Or.inr ⟨rfl, rfl⟩)
      · exact Or.inr (Or.inl ⟨rfl, rfl⟩)
    · exact Or.inl rfl
  · rintro ⟨h1, h2, _⟩; rw [h1] at h2; exact Bool.noConfusion h2
  · rintro ⟨h1, h2, _⟩; rw [h1] at h2; exact Bool.noConfusion h2
  · rintro ⟨⟨_, h1⟩, _, h2⟩; rw [h1] at h2; exact Bool.noConfusion h2

theorem route_classification_witness :
    pySplit "docker ps" = "docker" :: ["ps"] ∧
    isLogRequest "An ERROR occurred" = true ∧
    COMPLEX_COMMANDS.contains "docker" = true ∧
    route_request echoCollab "docker ps" "An ERROR occurred" =
      logBranch echoCollab "docker ps" "An ERROR occurred" :=
  ⟨rfl, by decide, by decide,
   (route_classification echoCollab "docker ps" "An ERROR occurred" "docker" ["ps"]
     rfl).1.1 (by decide)⟩

/-- C5: on the log-analysis path the Search Collaborator receives
`"how to fix error: " ++ <first matching line>`, and the prompt handed
to the structured-analysis step embeds the command, the full output and
the search result; the search happens before the single chat call. -/
theorem log_path_search_and_prompt (co : Collab) (cmd out name : String)
    (rest : List String) (line : String)
    (hsp : pySplit cmd = name :: rest)
    (hline : findLogLine (splitlines out) = some line) :
    route_request co cmd out =
      (fun p => ((get_structured_analysis co p).1,
         [Event.search ("how to fix error: " ++ line),
          Event.chat (fullPrompt p)]))
        ("The user ran the command \x27" ++ cmd ++
         "\x27 and got the following output:\n---\n" ++ out ++ "\n---\n" ++
         "I performed a web search for the error and got this result:\n---\n" ++
         co.search ("how to fix error: " ++ line) ++ "\n---\n" ++
         "Please analyze this and provide recommendations.") := by
  rw [route_log hsp (findLogLine_isLog hline)]
  simp only [logBranch, hline, gsa_trace]

theorem log_path_search_and_prompt_witness :
    pySplit "ls" = "ls" :: [] ∧
    findLogLine (splitlines "ok\nERROR: bad\nrest") = some "ERROR: bad" ∧
    route_request echoCollab "ls" "ok\nERROR: bad\nrest" =
      (fun p => ((get_structured_analysis echoCollab p).1,
         [Event.search ("how to fix error: " ++ "ERROR: bad"),
          Event.chat (fullPrompt p)]))
        ("The user ran the command \x27" ++ "ls" ++
         "\x27 and got the following output:\n---\n" ++ "ok\nERROR: bad\nrest" ++ "\n---\n" ++
         "I performed a web search for the error and got this result:\n---\n" ++
         echoCollab.search ("how to fix error: " ++ "ERROR: bad") ++ "\n---\n" ++
         "Please analyze this and provide recommendations.") :=
  ⟨rfl, rfl,
   log_path_search_and_prompt echoCollab "ls" "ok\nERROR: bad\nrest" "ls" []
     "ERROR: bad" rfl rfl⟩

/-- C6: on the complex-command path (first token in the fixed set, no
log keyword in the output) the Search Collaborator receives
`"documentation for " ++ command` and the prompt embeds the command,
the output and the search result. -/
theorem complex_path_search_and_prompt (co : Collab) (cmd out name : String)
    (rest : List String)
    (hsp : pySplit cmd = name :: rest)
    (hc : COMPLEX_COMMANDS.contains name = true)
    (hl : isLogRequest out = false) :
    route_request co cmd out =
      (fun p => ((get_structured_analysis co p).1,
         [Event.search ("documentation for " ++ cmd),
          Event.chat (fullPrompt p)]))
        ("The user ran the command \x27" ++ cmd ++
         "\x27 and got the following output:\n---\n" ++ out ++ "\n---\n" ++
         "I performed a web search for the command and got this documentation:\n---\n" ++
         co.search ("documentation for " ++ cmd) ++ "\n---\n" ++
         "Please analyze the output based on the documentation and provide recommendations.") := by
  rw [route_complex hsp hl hc]
  simp only [complexBranch, gsa_trace]

theorem complex_path_search_and_prompt_witness :
    pySplit "docker ps" = "docker" :: ["ps"] ∧
    COMPLEX_COMMANDS.contains "docker" = true ∧
    isLogRequest "permission denied" = false ∧
    route_request echoCollab "docker ps" "permission denied" =
      (fun p => ((get_structured_analysis echoCollab p).1,
         [Event.search ("documentation for " ++ "docker ps"),
          Event.chat (fullPrompt p)]))
        ("The user ran the command \x27" ++ "docker ps" ++
         "\x27 and got the following output:\n---\n" ++ "permission denied" ++ "\n---\n" ++
         "I performed a web search for the command and got this documentation:\n---\n" ++
         echoCollab.search ("documentation for " ++ "docker ps") ++ "\n---\n" ++
         "Please analyze the output based on the documentation and provide recommendations.") :=
  ⟨rfl, by decide, by decide,
   complex_path_search_and_prompt echoCollab "docker ps" "permission denied"
     "docker" ["ps"] rfl (by decide) (by decide)⟩

/-- C8: the log-analysis fallback is unreachable: no log keyword
contains a line-break character, so whenever a keyword occurs in the
lowered whole output some individual line also contains it, and the
literal fallback string is never returned. -/
theorem log_fallback_unreachable (co : Collab) (cmd out : String) :
    (route_request co cmd out).1 ≠
      Except.ok "Log analysis path, but no specific error line found." ∧
    (isLogRequest out = true →
      ∃ line, findLogLine (splitlines out) = some line) := by
  refine ⟨?_, fun hl => isLog_findLogLine hl⟩
  intro hcontra
  rcases hsp : pySplit cmd with _ | ⟨name, rest⟩
  · simp [route_request, hsp] at hcontra
  · have contra_of_gsa : ∀ p : String,
        (get_structured_analysis co p).1 =
          Except.ok "Log analysis path, but no specific error line found." → False := by
      intro p h
      rcases gsa_ok_shape h with h1 | ⟨r, hr⟩
      · exact absurd h1 (by decide)
      · exact sparkle_ne_fallback r hr.symm
    by_cases hl : isLogRequest out = true
    · obtain ⟨line, hline⟩ := isLog_findLogLine hl
      rw [route_log hsp hl] at hcontra
      simp only [logBranch, hline] at hcontra
      exact contra_of_gsa _ hcontra
    · have hl' : isLogRequest out = false := by simpa using hl
      by_cases hc : COMPLEX_COMMANDS.contains name = true
      · rw [route_complex hsp hl' hc] at hcontra
        simp only [complexBranch] at hcontra
        exact contra_of_gsa _ hcontra
      · have hc' : COMPLEX_COMMANDS.contains name = false := by simpa using hc
        rw [route_simple hsp hl' hc'] at hcontra
        simp only [simpleBranch] at hcontra
        exact contra_of_gsa _ hcontra

theorem log_fallback_unreachable_witness :
    (route_request echoCollab "ls" "An ERROR occurred").1 ≠
      Except.ok "Log analysis path, but no specific error line found." ∧
    ∃ line, findLogLine (splitlines "An ERROR occurred") = some line :=
  ⟨(log_fallback_unreachable echoCollab "ls" "An ERROR occurred").1,
   (log_fallback_unreachable echoCollab "ls" "An ERROR occurred").2 (by decide)⟩

/-- C2 counterexample: with a non-empty command, an output containing
no log keyword and a chat reply of `"5"` (valid JSON, not an object),
`route_request` propagates an `AttributeError` instead of returning
text, so the contract "never raises; always returns text" fails on the
code as written. -/
theorem route_raises_on_nonobject_reply :
    (route_request numReplyCollab "ls" "all good").1 =
      Except.error PyErr.attributeError := rfl

/-- The analysis step returns `.ok` whenever its chat call succeeds and
any successfully parsed reply is accepted by `format_response`. -/
theorem gsa_ok_exists (co : Collab) (p : String)
    (hchat : ∀ q, ∃ t, co.chat q = .ok t)
    (hwf : ∀ q t j, co.chat q = .ok t → json_loads (fencePre t) = some j →
             ∃ s, format_response j = .ok s) :
    ∃ s, (get_structured_analysis co p).1 = .ok s := by
  obtain ⟨t, ht⟩ := hchat (fullPrompt p)
  simp only [get_structured_analysis, ht]
  rcases hj : json_loads (fencePre t) with _ | j
  · exact ⟨DECODE_ERR, rfl⟩
  · obtain ⟨s, hs⟩ := hwf _ t j ht hj
    exact ⟨s, hs⟩

/-- C2 amended: `route_request` never raises and returns text for every
non-empty command and every output, provided the chat collaborator
itself succeeds and every chat reply that parses as JSON is a value
`format_response` accepts (an object whose `analysis` entry, if
present, is a string and whose `recommendations` entry, if present, is
a list of strings, a string, or an object); replies that fail to parse
still produce the error text rather than an exception. -/
theorem route_returns_text (co : Collab) (cmd out : String)
    (hcmd : pySplit cmd ≠ [])
    (hchat : ∀ q, ∃ t, co.chat q = .ok t)
    (hwf : ∀ q t j, co.chat q = .ok t → json_loads (fencePre t) = some j →
             ∃ s, format_response j = .ok s) :
    ∃ s, (route_request co cmd out).1 = Except.ok s := by
  rcases hsp : pySplit cmd with _ | ⟨name, rest⟩
  · exact absurd hsp hcmd
  · by_cases hl : isLogRequest out = true
    · obtain ⟨line, hline⟩ := isLog_findLogLine hl
      rw [route_log hsp hl]
      simp only [logBranch, hline]
      exact gsa_ok_exists co _ hchat hwf
    · have hl' : isLogRequest out = false := by simpa using hl
      by_cases hc : COMPLEX_COMMANDS.contains name = true
      · rw [route_complex hsp hl' hc]
        simp only [complexBranch]
        exact gsa_ok_exists co _ hchat hwf
      · have hc' : COMPLEX_COMMANDS.contains name = false := by simpa using hc
        rw [route_simple hsp hl' hc']
        simp only [simpleBranch]
        exact gsa_ok_exists co _ hchat hwf

theorem route_returns_text_witness :
    ∃ s, (route_request echoCollab "git status" "done").1 = Except.ok s :=
  route_returns_text echoCollab "git status" "done"
    (by decide)
    (fun q => ⟨"not json", rfl⟩)
    (by
      intro q t j hq hj
      injection hq with hq
      subst hq
      rw [show json_loads (fencePre "not json") = none from rfl] at hj
      exact absurd hj (by simp))

/-- C3: the log-analysis and complex-command paths perform exactly one
search call each, the simple path performs none, and exactly one chat
call is made per request, whichever path is taken. -/
theorem route_call_counts (co : Collab) (cmd out name : String)
    (rest : List String) (hsp : pySplit cmd = name :: rest) :
    chatCount (route_request co cmd out).2 = 1 ∧
    (isLogRequest out = true ∨ COMPLEX_COMMANDS.contains name = true →
      searchCount (route_request co cmd out).2 = 1) ∧
    (isLogRequest out = false → COMPLEX_COMMANDS.contains name = false →
      searchCount (route_request co cmd out).2 = 0) := by
  by_cases hl : isLogRequest out = true
  · obtain ⟨line, hline⟩ := isLog_findLogLine hl
    rw [route_log hsp hl]
    simp only [logBranch, hline, gsa_trace]
    refine ⟨by simp [chatCount], fun _ => by simp [searchCount], fun h _ => ?_⟩
    rw [hl] at h
    exact Bool.noConfusion h
  · have hl' : isLogRequest out = false := by simpa using hl
    by_cases hc : COMPLEX_COMMANDS.contains name = true
    · rw [route_complex hsp hl' hc]
      simp only [complexBranch, gsa_trace]
      refine ⟨by simp [chatCount], fun _ => by simp [searchCount], fun _ h => ?_⟩
      rw [hc] at h
      exact Bool.noConfusion h
    · have hc' : COMPLEX_COMMANDS.contains name = false := by simpa using hc
      rw [route_simple hsp hl' hc']
      simp only [simpleBranch, gsa_trace]
      refine ⟨by simp [chatCount], fun h => ?_, fun _ _ => by simp [searchCount]⟩
      rcases h with h | h
      · rw [hl'] at h; exact Bool.noConfusion h
      · rw [hc'] at h; exact Bool.noConfusion h

theorem route_call_counts_witness :
    pySplit "docker ps" = "docker" :: ["ps"] ∧
    chatCount (route_request echoCollab "docker ps" "permission denied").2 = 1 ∧
    searchCount (route_request echoCollab "docker ps" "permission denied").2 = 1 :=
  ⟨rfl,
   (route_call_counts echoCollab "docker ps" "permission denied" "docker" ["ps"] rfl).1,
   (route_call_counts echoCollab "docker ps" "permission denied" "docker" ["ps"] rfl).2.1
     (Or.inr (by decide))⟩

/-- A `StructuredAnalysis` record (spec section 3) rendered as the JSON
object `format_response` receives: each field present or absent, with
its typed value. -/
def mkRecordJson (title command analysis : Option String)
    (recs : Option (List String)) : Json :=
  Json.obj
    ((title.map fun t => ("title", Json.str t)).toList ++
     (command.map fun c => ("command", Json.str c)).toList ++
     (analysis.map fun a => ("analysis", Json.str a)).toList ++
     (recs.map fun r => ("recommendations", Json.arr (r.map Json.str))).toList)

theorem cleanRecList_strs (r : List String) :
    cleanRecList (r.map Json.str) = .ok (r.map stripStars) := by
  induction r with
  | nil => rfl
  | cons a t ih => simp [cleanRecList, cleanRec, ih]

/-- C7: the Response Formatter is total on records: absent fields
default (title to `"SoulCLI Analysis"`, command and analysis to `""`,
recommendations to `[]`), every literal `"**"` is stripped from the
analysis and each recommendation, recommendations keep their order with
1-based ordinals — and stripping is exhaustive and leaves already-clean
text unchanged. -/
theorem format_response_total_strip :
    (∀ (title command analysis : Option String) (recs : Option (List String)),
      format_response (mkRecordJson title command analysis recs) =
        Except.ok
          ("✨ " ++
            (title.getD "SoulCLI Analysis" ++ "\n" ++ RULE ++ "\n\n" ++
             "➡️ Command:\n   " ++ command.getD "" ++ "\n\n" ++ RULE ++ "\n\n" ++
             "💡 Analysis:\n   " ++ stripStars (analysis.getD "") ++ "\n\n" ++ RULE ++ "\n\n" ++
             "✅ Recommendations:\n" ++ recLines 1 ((recs.getD []).map stripStars)))) ∧
    (∀ x : String, strContains x "**" = false → stripStars x = x) ∧
    (∀ x : String, strContains (stripStars x) "**" = false) := by
  refine ⟨?_, ?_, ?_⟩
  · intro title command analysis recs
    rcases title with _ | t <;> rcases command with _ | c <;>
      rcases analysis with _ | a <;> rcases recs with _ | r <;>
      simp [mkRecordJson, format_response, dictGet, List.find?, pyToStr,
            cleanRecs, cleanRecList, cleanRecList_strs, Option.getD]
  · intro x h
    have h2 := stripStarsL_clean x.data h
    show String.mk (stripStarsL x.data) = x
    rw [h2]
  · intro x
    exact stripStarsL_no_double x.data

theorem format_response_total_strip_witness :
    format_response (mkRecordJson none none (some "**bold** text") (some ["**r1**"])) =
      Except.ok
        ("✨ " ++
          ("SoulCLI Analysis" ++ "\n" ++ RULE ++ "\n\n" ++
           "➡️ Command:\n   " ++ "" ++ "\n\n" ++ RULE ++ "\n\n" ++
           "💡 Analysis:\n   " ++ "bold text" ++ "\n\n" ++ RULE ++ "\n\n" ++
           "✅ Recommendations:\n" ++ "   1. r1\n")) ∧
    stripStars "bold text" = "bold text" ∧
    strContains (stripStars "**bold** text") "**" = false :=
  ⟨by
    rw [format_response_total_strip.1 none none (some "**bold** text") (some ["**r1**"])]
    rfl,
   format_response_total_strip.2.1 "bold text" (by decide),
   format_response_total_strip.2.2 "**bold** text"⟩

end SoulCLI
